import Mathlib

/-!
# redis-memoizer — verification of the memoization engine, value codec and lock

Shallow embedding of the repository's JavaScript sources:

* `src/index.js` — the memoization engine (`memoizedFunction`, `doLookup`,
  `getKeyFromRedis`, `writeKeyToRedis`, `reviver`, the `MAGIC` markers);
* `src/lock.js` — the fail-open distributed lock (`acquireLock`, `lock`, `unlock`);
* `src/unnamed/part_003` — a historical variant of the engine carrying the
  process-local `inFlight` registry.

Conventions of the embedding:

* JavaScript values that can flow through the cache are the inductive `JSValue`.
  JS numbers are modelled as integers (no claim depends on float behaviour).
  A `Date` is represented by the ISO-8601 string its `toJSON` produces.
* `JSON.stringify`/`JSON.parse` are JS builtins (external collaborators); their
  composition is modelled at the JSON-tree level: `stringifyVal` produces the
  parse tree of the serialized text, and the repository's `reviver` is the
  Lean function `revive` running bottom-up over that tree, exactly as
  `JSON.parse(text, reviver)` does.
* The stored string is a `Payload`: either one of the literal `MAGIC` marker
  strings (compared with `===` in `getKeyFromRedis`) or the output of
  `JSON.stringify`.  `JSON.stringify` output is never empty and never equal to
  a marker string (it quotes strings), so the two arms are disjoint.
* Asynchrony is modelled by explicit state passing; the sequential call model
  assumes a healthy store (as the spec's sequential-call properties do).
-/

set_option autoImplicit false

namespace RedisMemoizer

/-- A JavaScript `Error` as the engine sees it: the properties read by the
replacer-array `JSON.stringify(value, MAGIC.error_keys)` and written by the
`reviver`.  `message`, `name` and `stack` are always strings on a real error
(own or inherited through `Error.prototype`); `type` is usually absent.
`marked` records whether the own property `_$$_error` has been set to `true`
(the mutation `value[MAGIC.error] = true` in `writeKeyToRedis`). -/
structure JSError where
  message : String
  name : String
  stack : String
  typ : Option String
  marked : Bool
  deriving Repr, DecidableEq

/-- A JavaScript value that can be passed to or returned from a memoized
function.  `date iso` is a `Date` object represented by its `toJSON`
serialization (always an ISO-8601 string of the shape `reISOmatch` accepts). -/
inductive JSValue where
  | undef
  | null
  | bool (b : Bool)
  | num (n : Int)
  | str (s : String)
  | date (iso : String)
  | err (e : JSError)
  | arr (elems : List JSValue)
  | obj (fields : List (String × JSValue))
  deriving Repr

/-- A JSON parse tree: the result of `JSON.parse` before the reviver runs. -/
inductive JSON where
  | null
  | bool (b : Bool)
  | num (n : Int)
  | str (s : String)
  | arr (elems : List JSON)
  | obj (fields : List (String × JSON))
  deriving Repr

/-- The `MAGIC.error` marker property name, `'_$$_error'` (src/index.js line 16). -/
def errorMarker : String := "_$$_error"

/-! ## The ISO-8601 recognizer `reISO` (src/index.js line 155)

`/^(\d{4})-(\d{2})-(\d{2})T(\d{2}):(\d{2}):(\d{2}(?:\.\d*))(?:Z|(\+|-)([\d|:]*))?$/`

Two quirks of the source regex are preserved: the fractional-seconds dot is
mandatory (with possibly zero digits after it), and the timezone-offset
character class `[\d|:]*` literally contains `|`. -/

/-- Decimal digit, the class `\d`. -/
def isDigitCh (c : Char) : Bool := decide ('0' ≤ c) && decide (c ≤ '9')

/-- A character of the offset class `[\d|:]`. -/
def isTzChar (c : Char) : Bool := isDigitCh c || c == '|' || c == ':'

/-- The optional timezone suffix `(?:Z|(\+|-)([\d|:]*))?$`. -/
def tzTail : List Char → Bool
  | [] => true
  | ['Z'] => true
  | c :: rest => (c == '+' || c == '-') && rest.all isTzChar

/-- After the mandatory dot: `\d*` then the timezone suffix.  The timezone
alternatives never start with a digit, so maximal munch of the digits is
equivalent to the regex's backtracking. -/
def fracTz (l : List Char) : Bool := tzTail (l.dropWhile isDigitCh)

/-- Whether `reISO` matches the whole string. -/
def reISOmatch (s : String) : Bool :=
  match s.toList with
  | y1 :: y2 :: y3 :: y4 :: '-' :: mo1 :: mo2 :: '-' :: d1 :: d2 :: 'T' ::
    h1 :: h2 :: ':' :: mi1 :: mi2 :: ':' :: s1 :: s2 :: '.' :: rest =>
      [y1, y2, y3, y4, mo1, mo2, d1, d2, h1, h2, mi1, mi2, s1, s2].all isDigitCh
        && fracTz rest
  | _ => false

/-! ## `JSON.stringify` at the tree level

`stringifyVal v` is the parse tree of `JSON.stringify(v)` (no replacer).
JS specifics preserved: `undefined` inside an array serializes as `null`;
`undefined`-valued object fields are omitted; a `Date` serializes as its
`toJSON` ISO string; an `Error` has no own enumerable properties except a
`_$$_error` marker when one has been set, so it serializes as `{}` or
`{"_$$_error":true}`. -/

mutual

def stringifyVal : JSValue → JSON
  | .undef => .null
  | .null => .null
  | .bool b => .bool b
  | .num n => .num n
  | .str s => .str s
  | .date iso => .str iso
  | .err e => .obj (if e.marked then [(errorMarker, .bool true)] else [])
  | .arr xs => .arr (stringifyList xs)
  | .obj fs => .obj (stringifyFields fs)

def stringifyList : List JSValue → List JSON
  | [] => []
  | v :: rest => stringifyVal v :: stringifyList rest

def stringifyFields : List (String × JSValue) → List (String × JSON)
  | [] => []
  | (_, .undef) :: rest => stringifyFields rest
  | (k, v) :: rest => (k, stringifyVal v) :: stringifyFields rest

end

/-- First field with the given key, as JS property lookup on a parsed object. -/
def lookupField (fs : List (String × JSValue)) (k : String) : Option JSValue :=
  (fs.find? (fun kv => kv.1 = k)).map (fun kv => kv.2)

/-- Coerce a revived field to the string the reviver stores on the error.
Engine-written payloads always carry string fields here; for exotic non-string
payloads JS would apply `String()` coercion, which no claim exercises. -/
def fieldString (fs : List (String × JSValue)) (k : String) : String :=
  match lookupField fs k with
  | some (.str s) => s
  | _ => ""

/-- The error branch of `reviver` (src/index.js lines 162-168): build a fresh
`Error` from the revived fields.  The reviver does not set the `_$$_error`
own property on the revived error, so `marked := false`. -/
def reviveError (fs : List (String × JSValue)) : JSError :=
  { message := fieldString fs "message"
    name := fieldString fs "name"
    stack := fieldString fs "stack"
    typ := match lookupField fs "type" with
           | some (.str s) => some s
           | _ => none
    marked := false }

/-! ## `JSON.parse(text, reviver)` at the tree level

`reviver` (src/index.js lines 156-171) runs bottom-up: ISO-shaped strings
become `Date`s; an object carrying an own `_$$_error` property becomes an
`Error` built from its (already revived) fields; everything else passes
through.  The reviver never returns `undefined`, so object keys survive. -/

mutual

def revive : JSON → JSValue
  | .null => .null
  | .bool b => .bool b
  | .num n => .num n
  | .str s => if reISOmatch s then .date s else .str s
  | .arr xs => .arr (reviveList xs)
  | .obj fs =>
      if fs.any (fun kv => kv.1 = errorMarker) then .err (reviveError (reviveFields fs))
      else .obj (reviveFields fs)

def reviveList : List JSON → List JSValue
  | [] => []
  | j :: rest => revive j :: reviveList rest

def reviveFields : List (String × JSON) → List (String × JSValue)
  | [] => []
  | (k, j) :: rest => (k, revive j) :: reviveFields rest

end

/-! ## The stored payload and the value codec
(`writeKeyToRedis` / `getKeyFromRedis`, src/index.js lines 173-211) -/

/-- The string stored in redis for a cached entry: one of the literal `MAGIC`
marker strings, or the output of `JSON.stringify`.  `JSON.stringify` output is
never empty and never a bare marker (strings are quoted), so the arms are
disjoint — which is exactly what the `===` comparisons in `getKeyFromRedis`
rely on. -/
inductive Payload where
  | undefMarker
  | nullMarker
  | jsonOf (j : JSON)
  deriving Repr

/-- Serialization `JSON.stringify(value, MAGIC.error_keys.concat([MAGIC.error]))`
(src/index.js line 205): with a replacer array, `stringify` emits exactly the
listed keys, in replacer order `['message', 'type', 'name', 'stack',
'_$$_error']`, looking each up with `Get` (so the inherited `name` and the
non-enumerable `message`/`stack` are included); keys whose lookup yields
`undefined` are omitted (`type` usually, the marker when unset). -/
def serializeError (e : JSError) : JSON :=
  .obj ([("message", .str e.message)]
    ++ (match e.typ with | some t => [("type", JSON.str t)] | none => [])
    ++ [("name", .str e.name), ("stack", .str e.stack)]
    ++ (if e.marked then [(errorMarker, .bool true)] else []))

/-- The serialization dispatch of `writeKeyToRedis` (src/index.js lines
196-208).  Returns the value as it stands after the call — for an `Error` the
call mutates its argument by setting the own property `_$$_error := true`
before stringifying — together with the stored payload. -/
def serializeValue : JSValue → JSValue × Payload
  | .undef => (.undef, .undefMarker)
  | .null => (.null, .nullMarker)
  | .err e =>
      let e' := { e with marked := true }
      (.err e', .jsonOf (serializeError e'))
  | v => (v, .jsonOf (stringifyVal v))

/-- Result of a cache read after decoding: the `MAGIC.notFound` sentinel
(`'_$$_empty'`) or a value.  The sentinel is compared by identity in the
engine (`memoValue !== MAGIC.notFound`) and is distinct from every value. -/
inductive LookupResult where
  | notFound
  | found (v : JSValue)
  deriving Repr

/-- Decoding in `getKeyFromRedis` (src/index.js lines 180-185): an absent entry
(`value == null`) is the not-found sentinel; the two marker strings decode to
`undefined`/`null`; everything else is `JSON.parse(value, reviver)`.  (The
source's `value === ''` branch returns the empty string; `JSON.stringify`
never produces the empty string, so that branch is unreachable for
engine-written payloads and has no arm here.) -/
def getKeyFromRedis : Option Payload → LookupResult
  | none => .notFound
  | some .undefMarker => .found .undef
  | some .nullMarker => .found .null
  | some (.jsonOf j) => .found (revive j)

/-! ## Codec-faithful ("plain") values

The reviver rewrites two shapes on read: strings matching `reISO` (revived as
`Date`s) and objects carrying a `_$$_error` key (revived as `Error`s).  A
value is *plain* when it is built only from `null`, booleans, numbers,
non-ISO-shaped strings, arrays and objects without a `_$$_error` key and
without `undefined` members — exactly the values the codec round-trips. -/

mutual

def plainVal : JSValue → Bool
  | .undef => false
  | .null => true
  | .bool _ => true
  | .num _ => true
  | .str s => !reISOmatch s
  | .date _ => false
  | .err _ => false
  | .arr xs => plainList xs
  | .obj fs => !(fs.any (fun kv => kv.1 = errorMarker)) && plainFields fs

def plainList : List JSValue → Bool
  | [] => true
  | v :: rest => plainVal v && plainList rest

def plainFields : List (String × JSValue) → Bool
  | [] => true
  | (_, v) :: rest => plainVal v && plainFields rest

end

/-! ### Round-trip of plain values through the codec -/

theorem stringifyFields_cons (k : String) (v : JSValue) (rest : List (String × JSValue))
    (h : plainVal v = true) :
    stringifyFields ((k, v) :: rest) = (k, stringifyVal v) :: stringifyFields rest := by
  cases v <;> first | rfl | simp [plainVal] at h

theorem stringifyFields_key_any (k : String) :
    ∀ fs : List (String × JSValue), plainFields fs = true →
      (stringifyFields fs).any (fun kv => kv.1 = k) = fs.any (fun kv => kv.1 = k)
  | [], _ => rfl
  | (key, v) :: rest, h => by
      simp only [plainFields, Bool.and_eq_true] at h
      rw [stringifyFields_cons key v rest h.1]
      simp [stringifyFields_key_any k rest h.2]

mutual

theorem revive_stringifyVal : ∀ v : JSValue, plainVal v = true → revive (stringifyVal v) = v
  | .undef, h => by simp [plainVal] at h
  | .null, _ => rfl
  | .bool _, _ => rfl
  | .num _, _ => rfl
  | .str s, h => by
      simp only [plainVal, Bool.not_eq_true'] at h
      simp [stringifyVal, revive, h]
  | .date _, h => by simp [plainVal] at h
  | .err _, h => by simp [plainVal] at h
  | .arr xs, h => by
      simp only [plainVal] at h
      simp [stringifyVal, revive, revive_stringifyList xs h]
  | .obj fs, h => by
      simp only [plainVal, Bool.and_eq_true, Bool.not_eq_true'] at h
      have hkey : (stringifyFields fs).any (fun kv => kv.1 = errorMarker) = false := by
        rw [stringifyFields_key_any errorMarker fs h.2]; exact h.1
      simp [stringifyVal, revive, hkey, revive_stringifyFields fs h.2]

theorem revive_stringifyList :
    ∀ xs : List JSValue, plainList xs = true → reviveList (stringifyList xs) = xs
  | [], _ => rfl
  | v :: rest, h => by
      simp only [plainList, Bool.and_eq_true] at h
      simp [stringifyList, reviveList, revive_stringifyVal v h.1,
        revive_stringifyList rest h.2]

theorem revive_stringifyFields :
    ∀ fs : List (String × JSValue), plainFields fs = true →
      reviveFields (stringifyFields fs) = fs
  | [], _ => rfl
  | (k, v) :: rest, h => by
      simp only [plainFields, Bool.and_eq_true] at h
      rw [stringifyFields_cons k v rest h.1]
      simp [reviveFields, revive_stringifyVal v h.1, revive_stringifyFields rest h.2]

end

/-- A plain value survives the codec: serializing never mutates it and
decoding the stored payload recovers exactly the value. -/
theorem getKey_serialize_plain (v : JSValue) (h : plainVal v = true) :
    (serializeValue v).1 = v ∧
      getKeyFromRedis (some (serializeValue v).2) = .found v := by
  have hrt := revive_stringifyVal v h
  cases v <;>
    first
      | exact ⟨rfl, rfl⟩
      | exact ⟨rfl, by
          simpa [serializeValue, getKeyFromRedis, stringifyVal] using
            congrArg LookupResult.found hrt⟩
      | simp [plainVal] at h

/-! ## The store, TTL resolution and `doLookup` (src/index.js lines 89-152) -/

/-- The remote store as the engine observes it: entries carry the stored
payload and an absolute expiry instant (the `PX ttl` of `compressedPSetX`);
an entry is visible only strictly before its expiry. -/
abbrev MStore := List (String × Payload × Nat)

def storeGet (st : MStore) (key : String) (now : Nat) : Option Payload :=
  match st.find? (fun e => e.1 = key) with
  | some (_, p, exp) => if now < exp then some p else none
  | none => none

def storeSet (st : MStore) (key : String) (p : Payload) (exp : Nat) : MStore :=
  (key, p, exp) :: st

/-- The `ttl` option of `memoizeFn`: a fixed duration or a function of the
(eventual) result.  `memoizeFn` wraps a constant as `() => ttl`
(src/index.js line 92). -/
inductive TtlSpec where
  | const (n : Nat)
  | fn (g : Option JSValue → Nat)

/-- Resolution `ttlfn` applied to an optional argument: `ttlfn()` is `ttlfn none` and
`ttlfn(result)` is `ttlfn (some result)`.  A constant spec ignores the
argument, as `() => ttl` does. -/
def ttlfn : TtlSpec → Option JSValue → Nat
  | .const n, _ => n
  | .fn g, arg => g arg

/-- How a single `getKeyFromRedis` promise, raced against the
`Promise.timeout` bound, settles as seen by `doLookup`:
it resolves with a decoded value, rejects with an error (carrying a JS
`name`), or the bound fires first (bluebird's `TimeoutError`,
whose `name` is `'TimeoutError'`). -/
inductive ReadOutcome where
  | ok (v : LookupResult)
  | readErr (name : String)
  | timeout
  deriving Repr

/-- What `doLookup` does (src/index.js lines 138-152): on any rejection it
returns the `MAGIC.notFound` sentinel ("continue on"); it calls
`options.on_error` exactly for rejections whose `name` is not
`'TimeoutError'`; a resolved value that is an `Error` is re-thrown
(a memoized error). -/
structure DoLookupOut where
  result : LookupResult
  thrown : Option JSError
  reported : List String
  deriving Repr

def doLookup : ReadOutcome → DoLookupOut
  | .ok (.found (.err e)) => { result := .found (.err e), thrown := some e, reported := [] }
  | .ok v => { result := v, thrown := none, reported := [] }
  | .readErr name =>
      { result := .notFound, thrown := none
        reported := if name = "TimeoutError" then [] else [name] }
  | .timeout => { result := .notFound, thrown := none, reported := [] }

/-! ## The memoized call (src/index.js lines 94-135), sequential model

One call of `memoizedFunction` against a healthy store (both `doLookup`s
resolve with the stored entry), with the lock acquired uncontended — the
setting of the spec's sequential-call properties.  The wrapped function is
its outcome `FnOutcome`; the model returns the call's outcome, the store
after it, how many times the wrapped function ran, and a trace of the
engine's observable actions in order. -/

inductive FnOutcome where
  | ok (v : JSValue)
  | threw (e : JSError)

inductive Event where
  /-- a `doLookup` issued for `key` with `Promise.timeout` bound `bound` -/
  | lookupEv (key : String) (bound : Nat)
  /-- the wrapped function was invoked -/
  | fnCallEv
  /-- the predicate `options.memoize_errors_when(e)` was consulted, answering `ans` -/
  | predEv (e : JSError) (ans : Bool)
  /-- the write `writeKeyToRedis` stored `p` under `key` with ttl `t` -/
  | writeEv (key : String) (p : Payload) (t : Nat)
  /-- the call rejected with `e` -/
  | throwEv (e : JSError)
  /-- the `finally` block ran `unlock()` -/
  | unlockEv
  deriving Repr

structure CallResult where
  outcome : Except JSError JSValue
  store : MStore
  fnCalls : Nat
  trace : List Event

/-- The write `writeKeyToRedis` (src/index.js lines 188-211) on a healthy store:
a zero ttl suppresses the write entirely; otherwise the value is serialized
(mutating it if it is an `Error`) and stored with expiry `now + ttl`.
Returns the new store, the payload written (if any), and the value as the
caller now sees it. -/
def writeKeyToRedis (st : MStore) (key : String) (v : JSValue) (ttl : Nat) (now : Nat) :
    MStore × Option Payload × JSValue :=
  if ttl = 0 then (st, none, v)
  else
    let vp := serializeValue v
    (storeSet st key vp.2 (now + ttl), some vp.2, vp.1)

def memoizedCall (lookup_timeout : Nat) (memoize_errors_when : JSError → Bool)
    (ttl : TtlSpec) (key : String) (f : FnOutcome) (st : MStore) (now : Nat) :
    CallResult :=
  -- const timeoutMs = Math.min(ttlfn(), options.lookup_timeout)
  let bound := min (ttlfn ttl none) lookup_timeout
  -- const memoValue = await doLookup(...)
  match getKeyFromRedis (storeGet st key now) with
  | .found (.err e) =>
      -- doLookup re-throws a memoized error; no lock was taken yet
      { outcome := .error e, store := st, fnCalls := 0
        trace := [.lookupEv key bound, .throwEv e] }
  | .found v =>
      { outcome := .ok v, store := st, fnCalls := 0
        trace := [.lookupEv key bound] }
  | .notFound =>
      -- const unlock = await lock(key, lock_timeout)  (uncontended here)
      -- const memoValueRetry = await doLookup(...)
      match getKeyFromRedis (storeGet st key now) with
      | .found (.err e) =>
          -- thrown inside the try block: didOriginalFn is false, so the
          -- memoization predicate is not consulted; finally unlocks
          { outcome := .error e, store := st, fnCalls := 0
            trace := [.lookupEv key bound, .lookupEv key bound, .throwEv e, .unlockEv] }
      | .found v =>
          { outcome := .ok v, store := st, fnCalls := 0
            trace := [.lookupEv key bound, .lookupEv key bound, .unlockEv] }
      | .notFound =>
          match f with
          | .ok r =>
              -- fire-and-forget write; modelled as applied before the call returns
              let t := ttlfn ttl (some r)
              let w := writeKeyToRedis st key r t now
              { outcome := .ok r, store := w.1, fnCalls := 1
                trace := [.lookupEv key bound, .lookupEv key bound, .fnCallEv]
                  ++ (match w.2.1 with
                      | some p => [.writeEv key p t]
                      | none => [])
                  ++ [.unlockEv] }
          | .threw e =>
              let ans := memoize_errors_when e
              if ans then
                -- await writeKeyToRedis(client, key, e, ttlfn(e)); throw e
                -- (the write mutates e; the mutated object is what is thrown)
                let t := ttlfn ttl (some (.err e))
                let w := writeKeyToRedis st key (.err e) t now
                let e' := match w.2.2 with
                          | .err e' => e'
                          | _ => e   -- unreachable: writeKeyToRedis preserves the constructor
                { outcome := .error e', store := w.1, fnCalls := 1
                  trace := [.lookupEv key bound, .lookupEv key bound, .fnCallEv,
                      .predEv e true]
                    ++ (match w.2.1 with
                        | some p => [.writeEv key p t]
                        | none => [])
                    ++ [.throwEv e', .unlockEv] }
              else
                { outcome := .error e, store := st, fnCalls := 1
                  trace := [.lookupEv key bound, .lookupEv key bound, .fnCallEv,
                    .predEv e false, .throwEv e, .unlockEv] }

/-! ## The distributed lock (src/lock.js)

`acquireLock` retries a `SET lockName 1 PX timeoutLeft NX` until it succeeds
or the absolute deadline `timeoutStamp` passes; any rejection (store error or
"Lock not acquired") waits `retryDelay` and retries.  Time is discrete
milliseconds; the environment's behaviour is a script of attempt outcomes
(each `SET` round-trip: its duration and whether it returned `'OK'`); when
the script runs out, further attempts fail instantly (the lock stays held).
The recursion is fuel-indexed; `acquire_terminates` shows the fuel used by
`lockCall` always suffices, so the fuel is a proof device, not a semantic
bound. -/

structure Attempt where
  dur : Nat
  ok : Bool
  deriving Repr, DecidableEq

/-- One run of `acquireLock client lockName timeoutStamp retryDelay`
starting at `now`.  Returns `(acquiredAt?, finishTime)`: `acquiredAt? = none`
means it gave up because the deadline had passed (the code's `return null`);
`none` at the outer level means the fuel ran out. -/
def acquireLock (stamp retryDelay : Nat) :
    Nat → List Attempt → Nat → Option (Option Nat × Nat)
  | 0, _, _ => none
  | fuel + 1, attempts, now =>
      -- const timeoutLeft = timeoutStamp - Date.now(); if (timeoutLeft <= 0) return null
      if stamp ≤ now then some (none, now)
      else
        match attempts with
        | [] => acquireLock stamp retryDelay fuel [] (now + retryDelay)
        | a :: rest =>
            if a.ok then some (some (now + a.dur), now + a.dur)
            else
              -- catch: await Promise.delay(retryDelay); retry
              acquireLock stamp retryDelay fuel rest (now + a.dur + retryDelay)

/-- A call `lock(lockName, timeout)` (src/lock.js lines 25-38) started at `t0`:
computes `timeoutStamp = Date.now() + timeout + 1`, runs `acquireLock`, and
returns the `unlock` closure (which captures `timeoutStamp`).  The factory
applies `retryDelay = retryDelay || 50` (src/lock.js line 23).  The model
returns `(acquiredAt?, finishTime, timeoutStamp)`. -/
def lockCall (retryDelay timeout t0 : Nat) (attempts : List Attempt) :
    Option (Option Nat × Nat × Nat) :=
  let rd := if retryDelay = 0 then 50 else retryDelay
  let stamp := t0 + timeout + 1
  (acquireLock stamp rd (timeout + 2) attempts t0).map (fun r => (r.1, r.2, stamp))

/-- What the returned `unlock` closure does (src/lock.js lines 33-37) when
invoked at time `now`. -/
inductive UnlockAction where
  | delMarker (lockName : String)
  | resolveOnly
  deriving Repr, DecidableEq

def unlockFn (lockName : String) (timeoutStamp now : Nat) : UnlockAction :=
  -- if (timeoutStamp > Date.now()) return exec(client, 'del', lockName)
  if timeoutStamp > now then .delMarker lockName else .resolveOnly

/-! ## The in-flight registry (src/unnamed/part_003, lines 77-131)

The historical engine variant keeps, per memoized function, a process-local
object `inFlight` mapping an argument hash to the ordered list of `done`
callbacks waiting for that key.  Keys of a JS object are unique, so the
registry is a partial map; callers are identified by their callbacks,
modelled as opaque ids in join order. -/

abbrev Registry := String → Option (List Nat)

def emptyRegistry : Registry := fun _ => none

/-- What `onLookup` decides for one caller (part_003 lines 93-130). -/
inductive LookupAction where
  /-- the redis lookup produced a value: `done` is called back directly -/
  | deliverHit (caller : Nat)
  /-- same key already in flight: the caller was queued behind the winner -/
  | joined
  /-- no entry in flight: this caller became the winner and invoked `fn` -/
  | startedFn
  deriving Repr, DecidableEq

/-- The `onLookup` continuation for caller `c` on key `k` whose redis lookup
yielded `found`.  The source tests `if (value)`, so `none` stands for every
non-truthy lookup result: a miss, a lookup error, or a lookup timeout. -/
def onLookup (r : Registry) (k : String) (c : Nat) (found : Option JSValue) :
    Registry × LookupAction :=
  match found with
  | some _ => (r, .deliverHit c)
  | none =>
      match r k with
      | some waiters => (fun k' => if k' = k then some (waiters ++ [c]) else r k', .joined)
      | none => (fun k' => if k' = k then some [c] else r k', .startedFn)

/-- The winner's completion callback (part_003 lines 113-128): every queued
`done` is called, in join order, with the winner's result; then the key is
deleted from `inFlight`.  Returns the new registry and the deliveries made. -/
def onSettle (r : Registry) (k : String) (outcome : FnOutcome) :
    Registry × List (Nat × FnOutcome) :=
  match r k with
  | some waiters =>
      (fun k' => if k' = k then none else r k', waiters.map (fun c => (c, outcome)))
  | none => (r, [])

/-- Whether an event is a store lookup. -/
def isLookupEv : Event → Bool
  | .lookupEv _ _ => true
  | _ => false

/-! ## Helper lemmas -/

/-- Sanity checks of the `reISO` embedding: `toJSON`-shaped timestamps match
(including the source regex's optional fractional digits and timezone),
ordinary strings and date-only strings do not. -/
theorem reISOmatch_samples :
    reISOmatch "2015-03-05T01:02:03.456Z" = true ∧
    reISOmatch "2015-03-05T01:02:03." = true ∧
    reISOmatch "2015-03-05T01:02:03.456+01:00" = true ∧
    reISOmatch "hello" = false ∧
    reISOmatch "2015-03-05" = false := by decide

theorem storeGet_storeSet_self (st : MStore) (key : String) (p : Payload)
    (exp now : Nat) (h : now < exp) :
    storeGet (storeSet st key p exp) key now = some p := by
  simp [storeGet, storeSet, List.find?, h]

/-- On a double miss with a successful computation and a nonzero resolved
TTL, the call returns the fresh result, runs the wrapped function once, and
stores the serialized result with expiry `now + ttl`. -/
theorem memoizedCall_miss_ok (lt : Nat) (pred : JSError → Bool) (ttl : TtlSpec)
    (key : String) (r : JSValue) (st : MStore) (now : Nat)
    (hmiss : storeGet st key now = none) (ht : ttlfn ttl (some r) ≠ 0) :
    (memoizedCall lt pred ttl key (.ok r) st now).outcome = .ok r ∧
    (memoizedCall lt pred ttl key (.ok r) st now).fnCalls = 1 ∧
    (memoizedCall lt pred ttl key (.ok r) st now).store
      = storeSet st key (serializeValue r).2 (now + ttlfn ttl (some r)) := by
  refine ⟨?_, ?_, ?_⟩ <;>
    simp [memoizedCall, hmiss, getKeyFromRedis, writeKeyToRedis, ht]

/-- A first-lookup hit on a non-error value returns it without running the
wrapped function. -/
theorem memoizedCall_found (lt : Nat) (pred : JSError → Bool) (ttl : TtlSpec)
    (key : String) (f : FnOutcome) (st : MStore) (now : Nat) (v : JSValue)
    (hne : ∀ e, v ≠ JSValue.err e)
    (hget : getKeyFromRedis (storeGet st key now) = .found v) :
    (memoizedCall lt pred ttl key f st now).outcome = .ok v ∧
    (memoizedCall lt pred ttl key f st now).fnCalls = 0 := by
  cases v <;>
    first
      | exact absurd rfl (hne _)
      | exact ⟨by simp [memoizedCall, hget], by simp [memoizedCall, hget]⟩

/-- Two sequential calls for the same key against a value the codec
round-trips: the first misses, computes and writes; the second hits within
the entry's TTL and returns the same value without running the function. -/
theorem two_call_roundtrip (lt : Nat) (pred : JSError → Bool) (ttl : TtlSpec)
    (key : String) (r : JSValue) (st : MStore) (t1 t2 : Nat)
    (hmiss : storeGet st key t1 = none)
    (hcodec : getKeyFromRedis (some (serializeValue r).2) = .found r)
    (hne : ∀ e, r ≠ JSValue.err e)
    (h12 : t1 ≤ t2) (h2 : t2 < t1 + ttlfn ttl (some r)) :
    (memoizedCall lt pred ttl key (.ok r) st t1).outcome = .ok r ∧
    (memoizedCall lt pred ttl key (.ok r) st t1).fnCalls = 1 ∧
    (memoizedCall lt pred ttl key (.ok r)
        (memoizedCall lt pred ttl key (.ok r) st t1).store t2).outcome = .ok r ∧
    (memoizedCall lt pred ttl key (.ok r)
        (memoizedCall lt pred ttl key (.ok r) st t1).store t2).fnCalls = 0 := by
  have ht : ttlfn ttl (some r) ≠ 0 := by omega
  obtain ⟨h1o, h1f, h1s⟩ := memoizedCall_miss_ok lt pred ttl key r st t1 hmiss ht
  have hget2 : getKeyFromRedis
      (storeGet (memoizedCall lt pred ttl key (.ok r) st t1).store key t2)
      = .found r := by
    rw [h1s, storeGet_storeSet_self st key _ _ t2 (by omega)]
    exact hcodec
  obtain ⟨h2o, h2f⟩ := memoizedCall_found lt pred ttl key (.ok r) _ t2 r hne hget2
  exact ⟨h1o, h1f, h2o, h2f⟩

/-- Fuel sufficiency and the completion-time bound for `acquireLock`: with a
positive retry delay, any fuel exceeding the remaining time suffices, and the
loop finishes strictly before `stamp + dmax + rd` where `dmax` bounds the
attempt durations. -/
theorem acquireLock_total (stamp rd dmax : Nat) (hrd : 1 ≤ rd) :
    ∀ (fuel : Nat) (attempts : List Attempt) (now : Nat),
      (∀ a ∈ attempts, a.dur ≤ dmax) →
      stamp - now < fuel → now < stamp + dmax + rd →
      ∃ acq fin, acquireLock stamp rd fuel attempts now = some (acq, fin) ∧
        fin < stamp + dmax + rd := by
  intro fuel
  induction fuel with
  | zero => intro attempts now _ hf _; omega
  | succ fuel ih =>
    intro attempts now hdur hf hnow
    by_cases hle : stamp ≤ now
    · exact ⟨none, now, by simp [acquireLock, hle], hnow⟩
    · match attempts with
      | [] =>
          have := ih [] (now + rd) (by simp) (by omega) (by omega)
          obtain ⟨acq, fin, heq, hb⟩ := this
          exact ⟨acq, fin, by simp [acquireLock, hle, heq], hb⟩
      | a :: rest =>
          have hd := hdur a (by simp)
          by_cases hok : a.ok
          · exact ⟨some (now + a.dur), now + a.dur,
              by simp [acquireLock, hle, hok], by omega⟩
          · have := ih rest (now + a.dur + rd)
              (fun b hb => hdur b (by simp [hb])) (by omega) (by omega)
            obtain ⟨acq, fin, heq, hb⟩ := this
            exact ⟨acq, fin, by simp [acquireLock, hle, hok, heq], hb⟩

/-- The catch path when the computation threw, the predicate memoizes and the
resolved TTL is nonzero: the marked error is written and then thrown. -/
theorem memoizedCall_threw_memoized (lt : Nat) (pred : JSError → Bool)
    (ttl : TtlSpec) (key : String) (e : JSError) (st : MStore) (now : Nat)
    (hmiss : storeGet st key now = none) (hp : pred e = true)
    (ht : ttlfn ttl (some (.err e)) ≠ 0) :
    (memoizedCall lt pred ttl key (.threw e) st now).outcome
      = .error { e with marked := true } ∧
    (memoizedCall lt pred ttl key (.threw e) st now).store
      = storeSet st key (.jsonOf (serializeError { e with marked := true }))
          (now + ttlfn ttl (some (.err e))) ∧
    (memoizedCall lt pred ttl key (.threw e) st now).trace
      = [.lookupEv key (min (ttlfn ttl none) lt),
         .lookupEv key (min (ttlfn ttl none) lt), .fnCallEv, .predEv e true,
         .writeEv key (.jsonOf (serializeError { e with marked := true }))
           (ttlfn ttl (some (.err e))),
         .throwEv { e with marked := true }, .unlockEv] := by
  refine ⟨?_, ?_, ?_⟩ <;>
    simp [memoizedCall, hmiss, getKeyFromRedis, hp, writeKeyToRedis, ht,
      serializeValue]

/-- The catch path when the predicate declines: nothing is written and the
error is rethrown untouched. -/
theorem memoizedCall_threw_unmemoized (lt : Nat) (pred : JSError → Bool)
    (ttl : TtlSpec) (key : String) (e : JSError) (st : MStore) (now : Nat)
    (hmiss : storeGet st key now = none) (hp : pred e = false) :
    (memoizedCall lt pred ttl key (.threw e) st now).outcome = .error e ∧
    (memoizedCall lt pred ttl key (.threw e) st now).store = st ∧
    (memoizedCall lt pred ttl key (.threw e) st now).trace
      = [.lookupEv key (min (ttlfn ttl none) lt),
         .lookupEv key (min (ttlfn ttl none) lt), .fnCallEv, .predEv e false,
         .throwEv e, .unlockEv] := by
  refine ⟨?_, ?_, ?_⟩ <;>
    simp [memoizedCall, hmiss, getKeyFromRedis, hp]

/-- The catch path when the predicate memoizes but the resolved TTL is zero:
`writeKeyToRedis` returns before serializing, so nothing is stored, the error
is not marked, and the unmarked error is rethrown. -/
theorem memoizedCall_threw_zero_ttl (lt : Nat) (pred : JSError → Bool)
    (ttl : TtlSpec) (key : String) (e : JSError) (st : MStore) (now : Nat)
    (hmiss : storeGet st key now = none) (hp : pred e = true)
    (ht : ttlfn ttl (some (.err e)) = 0) :
    (memoizedCall lt pred ttl key (.threw e) st now).outcome = .error e ∧
    (memoizedCall lt pred ttl key (.threw e) st now).store = st ∧
    (memoizedCall lt pred ttl key (.threw e) st now).trace
      = [.lookupEv key (min (ttlfn ttl none) lt),
         .lookupEv key (min (ttlfn ttl none) lt), .fnCallEv, .predEv e true,
         .throwEv e, .unlockEv] := by
  refine ⟨?_, ?_, ?_⟩ <;>
    simp [memoizedCall, hmiss, getKeyFromRedis, hp, writeKeyToRedis, ht]

/-! ## Claim theorems -/

/-- C2: the process-local in-flight registry (src/unnamed/part_003).  An
entry is created holding exactly the winner when a caller misses on a key not
in flight (and only that caller starts the computation); a concurrent caller
that misses while the key is in flight is appended at the tail of the queue
and does not start the computation; a lookup hit bypasses the registry
entirely; when the winning computation settles, every queued caller receives
the winner's exact outcome, in join order, and the entry is removed; other
keys are never touched. -/
theorem inflight_registry (r : Registry) (k : String) (c : Nat) (out : FnOutcome) :
    (r k = none →
      (onLookup r k c none).1 k = some [c] ∧ (onLookup r k c none).2 = .startedFn) ∧
    (∀ waiters, r k = some waiters →
      (onLookup r k c none).1 k = some (waiters ++ [c]) ∧
      (onLookup r k c none).2 = .joined) ∧
    (∀ v, (onLookup r k c (some v)).1 = r ∧
      (onLookup r k c (some v)).2 = .deliverHit c) ∧
    (∀ waiters, r k = some waiters →
      (onSettle r k out).2 = waiters.map (fun w => (w, out)) ∧
      (onSettle r k out).1 k = none) ∧
    (∀ k', k' ≠ k → (onLookup r k c none).1 k' = r k' ∧
      (onSettle r k out).1 k' = r k') := by
  refine ⟨?_, ?_, ?_, ?_, ?_⟩
  · intro h; rw [onLookup, h]; exact ⟨by simp, rfl⟩
  · intro waiters h; rw [onLookup, h]; exact ⟨by simp, rfl⟩
  · intro v; exact ⟨rfl, rfl⟩
  · intro waiters h; rw [onSettle, h]; exact ⟨rfl, by simp⟩
  · intro k' hk
    constructor
    · rw [onLookup]
      cases hrk : r k <;> simp [hk]
    · rw [onSettle]
      cases hrk : r k <;> simp [hk]

/-- Witness for C2: a three-caller scenario on key `"h"` — caller 0 wins and
creates the entry, callers 1 and 2 join in order, and settlement delivers the
winner's outcome to `[0, 1, 2]` in join order and removes the entry. -/
theorem inflight_registry_witness :
    (onLookup emptyRegistry "h" 0 none).1 "h" = some [0] ∧
    (onLookup (onLookup emptyRegistry "h" 0 none).1 "h" 1 none).1 "h" = some [0, 1] ∧
    (onSettle (onLookup (onLookup emptyRegistry "h" 0 none).1 "h" 1 none).1 "h"
        (.ok .null)).2
      = [(0, FnOutcome.ok .null), (1, FnOutcome.ok .null)] ∧
    (onSettle (onLookup (onLookup emptyRegistry "h" 0 none).1 "h" 1 none).1 "h"
        (.ok .null)).1 "h" = none := by
  have h1 := (inflight_registry emptyRegistry "h" 0 (FnOutcome.ok .null)).1 rfl
  have h2 := (inflight_registry (onLookup emptyRegistry "h" 0 none).1 "h" 1
    (FnOutcome.ok .null)).2.1 [0] h1.1
  have h2' : (onLookup (onLookup emptyRegistry "h" 0 none).1 "h" 1 none).1 "h"
      = some [0, 1] := by simpa using h2.1
  have h3 := (inflight_registry (onLookup (onLookup emptyRegistry "h" 0 none).1 "h" 1
    none).1 "h" 2 (FnOutcome.ok .null)).2.2.2.1 [0, 1] h2'
  exact ⟨h1.1, h2', h3.1, h3.2⟩

/-- C4: a failed or timed-out store read yields the `MAGIC.notFound` sentinel
(a cache miss — on a true miss the engine proceeds to run the wrapped
function); a read rejection whose name is not `'TimeoutError'` is reported to
`on_error`; a plain timeout is never reported. -/
theorem lookup_failopen (name : String) :
    ((doLookup .timeout).result = .notFound ∧ (doLookup .timeout).reported = []) ∧
    ((doLookup (.readErr name)).result = .notFound) ∧
    (name ≠ "TimeoutError" → (doLookup (.readErr name)).reported = [name]) ∧
    ((doLookup (.readErr "TimeoutError")).reported = []) ∧
    (∀ lt pred ttl key r st now, storeGet st key now = none →
      ttlfn ttl (some r) ≠ 0 →
      (memoizedCall lt pred ttl key (.ok r) st now).fnCalls = 1) := by
  refine ⟨⟨rfl, rfl⟩, rfl, ?_, rfl, ?_⟩
  · intro h; simp [doLookup, h]
  · intro lt pred ttl key r st now hmiss ht
    exact (memoizedCall_miss_ok lt pred ttl key r st now hmiss ht).2.1

/-- Witness for C4: a connection-refused read error is reported and treated
as a miss, and on a true miss the function is computed. -/
theorem lookup_failopen_witness :
    (doLookup (.readErr "ECONNREFUSED")).reported = ["ECONNREFUSED"] ∧
    (memoizedCall 1000 (fun _ => false) (.const 10) "k" (.ok .null) [] 0).fnCalls
      = 1 :=
  ⟨(lookup_failopen "ECONNREFUSED").2.2.1 (by decide),
   (lookup_failopen "ECONNREFUSED").2.2.2.2 1000 (fun _ => false) (.const 10) "k"
     .null [] 0 rfl (by decide)⟩

/-- C9: the `unlock` closure issues the `DEL` of the lock marker exactly when
the current time is still strictly before the captured `timeoutStamp`; at or
after the deadline it performs no deletion and just resolves; and the
deadline a `lock(…, timeout)` call started at `t0` captures is
`t0 + timeout + 1`. -/
theorem unlock_deletes_iff_before_deadline (lockName : String)
    (timeoutStamp now : Nat) :
    (unlockFn lockName timeoutStamp now = .delMarker lockName ↔ now < timeoutStamp) ∧
    (timeoutStamp ≤ now → unlockFn lockName timeoutStamp now = .resolveOnly) ∧
    (∀ rd timeout t0 attempts acq fin stamp,
      lockCall rd timeout t0 attempts = some (acq, fin, stamp) →
      stamp = t0 + timeout + 1) := by
  refine ⟨?_, ?_, ?_⟩
  · unfold unlockFn
    constructor
    · intro h
      by_contra hlt
      simp [Nat.not_lt] at hlt
      rw [if_neg (by omega)] at h
      exact UnlockAction.noConfusion h
    · intro h; rw [if_pos (by omega)]
  · intro h; unfold unlockFn; rw [if_neg (by omega)]
  · intro rd timeout t0 attempts acq fin stamp h
    simp only [lockCall, Option.map_eq_some'] at h
    obtain ⟨a, -, ha⟩ := h
    exact (Prod.mk.injEq _ _ _ _).mp ((Prod.mk.injEq _ _ _ _).mp ha).2 |>.2.symm

/-- Witness for C9: one millisecond before a deadline of 5 the release
deletes the marker; at the deadline it only resolves. -/
theorem unlock_deletes_iff_before_deadline_witness :
    unlockFn "lock.k" 5 4 = .delMarker "lock.k" ∧
    unlockFn "lock.k" 5 5 = .resolveOnly :=
  ⟨(unlock_deletes_iff_before_deadline "lock.k" 5 4).1.mpr (by decide),
   (unlock_deletes_iff_before_deadline "lock.k" 5 5).2.1 (by decide)⟩

/-- C6 (amended): a `lock(key, T)` call always completes and returns a
release function — acquisition failure never throws — but its completion is
bounded by `T + 1 + retryDelay + d` (not by `T` itself), where `d` bounds a
single store attempt's duration: the deadline the code checks is
`now + T + 1`, and a final failing attempt just before the deadline still
pays its own duration plus one retry delay before the give-up check.  When
the deadline has passed, acquisition gives up silently with no ownership. -/
theorem lock_completes_fail_open (retryDelay timeout t0 dmax : Nat)
    (attempts : List Attempt) (hdur : ∀ a ∈ attempts, a.dur ≤ dmax) :
    (∃ acq fin, lockCall retryDelay timeout t0 attempts
        = some (acq, fin, t0 + timeout + 1) ∧
      fin < t0 + timeout + 1 + dmax + (if retryDelay = 0 then 50 else retryDelay)) ∧
    (∀ fuel now attempts2, t0 + timeout + 1 ≤ now →
      acquireLock (t0 + timeout + 1) (if retryDelay = 0 then 50 else retryDelay)
        (fuel + 1) attempts2 now = some (none, now)) := by
  constructor
  · have hrd : 1 ≤ (if retryDelay = 0 then 50 else retryDelay) := by split <;> omega
    obtain ⟨acq, fin, heq, hb⟩ :=
      acquireLock_total (t0 + timeout + 1) (if retryDelay = 0 then 50 else retryDelay)
        dmax hrd (timeout + 2) attempts t0 hdur (by omega) (by omega)
    exact ⟨acq, fin, by simp [lockCall, heq], by omega⟩
  · intro fuel now attempts2 h
    cases attempts2 <;> simp [acquireLock, h]

/-- Witness for C6: a contended then successful acquisition with attempt
durations bounded by 3 completes within the amended bound. -/
theorem lock_completes_fail_open_witness :
    ∃ acq fin, lockCall 50 5000 0 [⟨3, false⟩, ⟨1, true⟩] = some (acq, fin, 5001) ∧
      fin < 5001 + 3 + 50 := by
  simpa using (lock_completes_fail_open 50 5000 0 3 [⟨3, false⟩, ⟨1, true⟩]
    (by decide)).1

/-- Counterexample for C6: with `timeout = 0` and the default retry delay of
50ms, a single instantaneous failed attempt makes `lock` finish only at
`t = 50`, which is not within `T = 0` of its start — the code's completion
bound exceeds the claimed `timeoutDuration`. -/
theorem lock_exceeds_timeout_counterexample :
    lockCall 50 0 0 [⟨0, false⟩] = some (none, 50, 1) ∧ ¬(50 ≤ 0 + 0) :=
  ⟨rfl, by decide⟩

/-- C1 (amended): for a pure computation whose result the codec is faithful
to — a JSON-serializable value containing no string shaped like an ISO-8601
timestamp and no object with a `_$$_error` key (`plainVal`) — two sequential
calls with the same arguments within the resolved TTL return equal values and
the second call does not invoke the computation.  (A pure computation with
fixed arguments is a fixed key and a fixed result; the TTL resolved from the
result bounds the second call's time.) -/
theorem memoize_second_call_cached (lt : Nat) (pred : JSError → Bool)
    (ttl : TtlSpec) (key : String) (r : JSValue) (st : MStore) (t1 t2 : Nat)
    (hplain : plainVal r = true)
    (hmiss : storeGet st key t1 = none)
    (h12 : t1 ≤ t2) (h2 : t2 < t1 + ttlfn ttl (some r)) :
    (memoizedCall lt pred ttl key (.ok r) st t1).outcome = .ok r ∧
    (memoizedCall lt pred ttl key (.ok r)
        (memoizedCall lt pred ttl key (.ok r) st t1).store t2).outcome
      = (memoizedCall lt pred ttl key (.ok r) st t1).outcome ∧
    (memoizedCall lt pred ttl key (.ok r)
        (memoizedCall lt pred ttl key (.ok r) st t1).store t2).fnCalls = 0 := by
  have hcodec := (getKey_serialize_plain r hplain).2
  have hne : ∀ e, r ≠ JSValue.err e := by
    intro e he; subst he; simp [plainVal] at hplain
  obtain ⟨h1, -, h3, h4⟩ :=
    two_call_roundtrip lt pred ttl key r st t1 t2 hmiss hcodec hne h12 h2
  exact ⟨h1, by rw [h3, h1], h4⟩

/-- Witness for C1: the result `42` under a 120000ms TTL is served from cache
one millisecond later without re-invoking the computation. -/
theorem memoize_second_call_cached_witness :
    (memoizedCall 1000 (fun _ => false) (.const 120000) "memos:fn1:a"
        (.ok (.num 42)) [] 0).outcome = .ok (.num 42) ∧
    (memoizedCall 1000 (fun _ => false) (.const 120000) "memos:fn1:a"
        (.ok (.num 42))
        (memoizedCall 1000 (fun _ => false) (.const 120000) "memos:fn1:a"
          (.ok (.num 42)) [] 0).store 1).outcome
      = (memoizedCall 1000 (fun _ => false) (.const 120000) "memos:fn1:a"
          (.ok (.num 42)) [] 0).outcome ∧
    (memoizedCall 1000 (fun _ => false) (.const 120000) "memos:fn1:a"
        (.ok (.num 42))
        (memoizedCall 1000 (fun _ => false) (.const 120000) "memos:fn1:a"
          (.ok (.num 42)) [] 0).store 1).fnCalls = 0 :=
  memoize_second_call_cached 1000 (fun _ => false) (.const 120000) "memos:fn1:a"
    (.num 42) [] 0 1 rfl rfl (by omega) (by norm_num [ttlfn])

/-- Counterexample for C1 as stated: the pure computation returning the plain
string `"2020-01-01T00:00:00.000Z"` (an ordinary JSON-serializable value) is
not returned equal on the second call — the reviver turns the cached string
into a `Date`, so the second call's value differs from the first's. -/
theorem memoize_second_call_iso_string_counterexample :
    (memoizedCall 1000 (fun _ => false) (.const 120000) "k"
        (.ok (.str "2020-01-01T00:00:00.000Z")) [] 0).outcome
      = .ok (.str "2020-01-01T00:00:00.000Z") ∧
    (memoizedCall 1000 (fun _ => false) (.const 120000) "k"
        (.ok (.str "2020-01-01T00:00:00.000Z"))
        (memoizedCall 1000 (fun _ => false) (.const 120000) "k"
          (.ok (.str "2020-01-01T00:00:00.000Z")) [] 0).store 1).outcome
      = .ok (.date "2020-01-01T00:00:00.000Z") ∧
    (Except.ok (JSValue.date "2020-01-01T00:00:00.000Z") : Except JSError JSValue)
      ≠ .ok (.str "2020-01-01T00:00:00.000Z") :=
  ⟨rfl, rfl, fun h => by injection h with h'; exact JSValue.noConfusion h'⟩

/-- C5 (amended): the codec keeps four disjoint states — any plain
JSON-serializable value (including the falsy `false`, `0` and `""`, but
excluding strings shaped like ISO-8601 timestamps and objects with a
`_$$_error` key, which the reviver rewrites) round-trips exactly;
`undefined` and `null` serialize to two distinct dedicated markers and
round-trip; and an absent entry decodes to the not-found sentinel, which is
distinct from every cached value. -/
theorem codec_four_states (v : JSValue) (hplain : plainVal v = true) :
    getKeyFromRedis (some (serializeValue v).2) = .found v ∧
    getKeyFromRedis (some (serializeValue .undef).2) = .found .undef ∧
    getKeyFromRedis (some (serializeValue .null).2) = .found .null ∧
    (serializeValue JSValue.undef).2 ≠ (serializeValue JSValue.null).2 ∧
    getKeyFromRedis none = .notFound ∧
    (∀ w : JSValue, (LookupResult.notFound : LookupResult) ≠ .found w) :=
  ⟨(getKey_serialize_plain v hplain).2, rfl, rfl,
   fun h => Payload.noConfusion h, rfl, fun _ h => LookupResult.noConfusion h⟩

/-- Witness for C5: the falsy values `false`, `0` and `""` each round-trip
exactly, and the four states are distinguished. -/
theorem codec_four_states_witness :
    getKeyFromRedis (some (serializeValue (.bool false)).2) = .found (.bool false) ∧
    getKeyFromRedis (some (serializeValue (.num 0)).2) = .found (.num 0) ∧
    getKeyFromRedis (some (serializeValue (.str "")).2) = .found (.str "") ∧
    getKeyFromRedis (some (serializeValue .undef).2) = .found .undef ∧
    getKeyFromRedis (some (serializeValue .null).2) = .found .null ∧
    getKeyFromRedis none = .notFound :=
  ⟨(codec_four_states (.bool false) rfl).1,
   (codec_four_states (.num 0) rfl).1,
   (codec_four_states (.str "") rfl).1,
   (codec_four_states (.bool false) rfl).2.1,
   (codec_four_states (.bool false) rfl).2.2.1,
   (codec_four_states (.bool false) rfl).2.2.2.2.1⟩

/-- Counterexample for C5 as stated: the ordinary string
`"2020-05-06T07:08:09.100Z"` is JSON-serializable but does not deserialize
to itself — the reviver revives it as a `Date`. -/
theorem codec_iso_string_counterexample :
    getKeyFromRedis (some (serializeValue (.str "2020-05-06T07:08:09.100Z")).2)
      = .found (.date "2020-05-06T07:08:09.100Z") ∧
    JSValue.date "2020-05-06T07:08:09.100Z" ≠ .str "2020-05-06T07:08:09.100Z" :=
  ⟨rfl, fun h => JSValue.noConfusion h⟩

/-- C8: a `Date`-valued result round-trips through the cache as a date-like
value, not a plain string: the cached entry for a date is its ISO string, the
second call returns the `Date` again, and during deserialization every
string whose shape matches the ISO-8601 pattern is revived as a `Date`
(which is never a plain string value). -/
theorem date_roundtrip (lt : Nat) (pred : JSError → Bool) (ttl : TtlSpec)
    (key : String) (st : MStore) (t1 t2 : Nat) (iso : String)
    (hiso : reISOmatch iso = true)
    (hmiss : storeGet st key t1 = none)
    (h12 : t1 ≤ t2) (h2 : t2 < t1 + ttlfn ttl (some (.date iso))) :
    (memoizedCall lt pred ttl key (.ok (.date iso)) st t1).outcome
      = .ok (.date iso) ∧
    (memoizedCall lt pred ttl key (.ok (.date iso))
        (memoizedCall lt pred ttl key (.ok (.date iso)) st t1).store t2).outcome
      = .ok (.date iso) ∧
    (∀ s, reISOmatch s = true → revive (.str s) = .date s) ∧
    (∀ s, JSValue.date s ≠ .str s) := by
  have hcodec : getKeyFromRedis (some (serializeValue (.date iso)).2)
      = .found (.date iso) := by
    simp [serializeValue, getKeyFromRedis, stringifyVal, revive, hiso]
  have hne : ∀ e, JSValue.date iso ≠ JSValue.err e := fun _ h => JSValue.noConfusion h
  obtain ⟨h1, -, h3, -⟩ :=
    two_call_roundtrip lt pred ttl key (.date iso) st t1 t2 hmiss hcodec hne h12 h2
  refine ⟨h1, h3, ?_, fun _ h => JSValue.noConfusion h⟩
  intro s hs
  simp [revive, hs]

/-- Witness for C8: a concrete `toJSON`-shaped date round-trips as a date. -/
theorem date_roundtrip_witness :
    (memoizedCall 1000 (fun _ => false) (.const 120000) "k"
        (.ok (.date "2015-03-05T01:02:03.456Z")) [] 0).outcome
      = .ok (.date "2015-03-05T01:02:03.456Z") ∧
    (memoizedCall 1000 (fun _ => false) (.const 120000) "k"
        (.ok (.date "2015-03-05T01:02:03.456Z"))
        (memoizedCall 1000 (fun _ => false) (.const 120000) "k"
          (.ok (.date "2015-03-05T01:02:03.456Z")) [] 0).store 1).outcome
      = .ok (.date "2015-03-05T01:02:03.456Z") ∧
    revive (.str "2015-03-05T01:02:03.456Z") = .date "2015-03-05T01:02:03.456Z" := by
  obtain ⟨h1, h2, h3, -⟩ := date_roundtrip 1000 (fun _ => false) (.const 120000)
    "k" [] 0 1 "2015-03-05T01:02:03.456Z" (by decide) rfl (by omega)
    (by norm_num [ttlfn])
  exact ⟨h1, h2, h3 _ (by decide)⟩

/-- C3 (amended): when the wrapped computation throws `e`, the
error-memoization predicate is consulted with `e`; if it answers `true` and
the TTL resolved for the error is nonzero, the captured (marked) error is
written to the store and the write precedes the rethrow (the trace shows the
awaited write strictly before the throw); if it answers `false`, nothing is
written; and in every case the call rejects — it never resolves
successfully after its own computation throws. -/
theorem error_memoization_path (lt : Nat) (pred : JSError → Bool)
    (ttl : TtlSpec) (key : String) (e : JSError) (st : MStore) (now : Nat)
    (hmiss : storeGet st key now = none) :
    (Event.predEv e (pred e) ∈ (memoizedCall lt pred ttl key (.threw e) st now).trace) ∧
    (pred e = true → ttlfn ttl (some (.err e)) ≠ 0 →
      (memoizedCall lt pred ttl key (.threw e) st now).store
        = storeSet st key (.jsonOf (serializeError { e with marked := true }))
            (now + ttlfn ttl (some (.err e))) ∧
      (memoizedCall lt pred ttl key (.threw e) st now).trace
        = [.lookupEv key (min (ttlfn ttl none) lt),
           .lookupEv key (min (ttlfn ttl none) lt), .fnCallEv, .predEv e true,
           .writeEv key (.jsonOf (serializeError { e with marked := true }))
             (ttlfn ttl (some (.err e))),
           .throwEv { e with marked := true }, .unlockEv]) ∧
    (pred e = false →
      (memoizedCall lt pred ttl key (.threw e) st now).store = st ∧
      (memoizedCall lt pred ttl key (.threw e) st now).outcome = .error e) ∧
    (∀ v, (memoizedCall lt pred ttl key (.threw e) st now).outcome ≠ .ok v) := by
  refine ⟨?_, ?_, ?_, ?_⟩
  · cases hp : pred e with
    | true =>
        by_cases ht : ttlfn ttl (some (.err e)) = 0
        · rw [(memoizedCall_threw_zero_ttl lt pred ttl key e st now hmiss hp ht).2.2]
          simp
        · rw [(memoizedCall_threw_memoized lt pred ttl key e st now hmiss hp ht).2.2]
          simp
    | false =>
        rw [(memoizedCall_threw_unmemoized lt pred ttl key e st now hmiss hp).2.2]
        simp
  · intro hp ht
    exact ⟨(memoizedCall_threw_memoized lt pred ttl key e st now hmiss hp ht).2.1,
      (memoizedCall_threw_memoized lt pred ttl key e st now hmiss hp ht).2.2⟩
  · intro hp
    exact ⟨(memoizedCall_threw_unmemoized lt pred ttl key e st now hmiss hp).2.1,
      (memoizedCall_threw_unmemoized lt pred ttl key e st now hmiss hp).1⟩
  · intro v h
    cases hp : pred e with
    | true =>
        by_cases ht : ttlfn ttl (some (.err e)) = 0
        · rw [(memoizedCall_threw_zero_ttl lt pred ttl key e st now hmiss hp ht).1] at h
          exact Except.noConfusion h
        · rw [(memoizedCall_threw_memoized lt pred ttl key e st now hmiss hp ht).1] at h
          exact Except.noConfusion h
    | false =>
        rw [(memoizedCall_threw_unmemoized lt pred ttl key e st now hmiss hp).1] at h
        exact Except.noConfusion h

/-- Witness for C3: a concrete error under a memoizing predicate is written
(marked) before being rethrown, and the call rejects. -/
theorem error_memoization_path_witness :
    (Event.predEv ⟨"boom", "Error", "s", none, false⟩ true
      ∈ (memoizedCall 1000 (fun _ => true) (.const 7) "k"
          (.threw ⟨"boom", "Error", "s", none, false⟩) [] 0).trace) ∧
    (memoizedCall 1000 (fun _ => true) (.const 7) "k"
        (.threw ⟨"boom", "Error", "s", none, false⟩) [] 0).store
      = [("k", .jsonOf (serializeError ⟨"boom", "Error", "s", none, true⟩), 7)] := by
  have h := error_memoization_path 1000 (fun _ => true) (.const 7) "k"
    ⟨"boom", "Error", "s", none, false⟩ [] 0 rfl
  exact ⟨h.1, (h.2.1 rfl (by decide)).1⟩

/-- Counterexample for C3 as stated: with a TTL of zero the predicate answers
`true` yet nothing is written to the store — `writeKeyToRedis` returns before
serializing — so the captured error is not "written to the store ... before
re-throwing"; the (unmarked) error is still rethrown. -/
theorem error_write_skipped_on_zero_ttl :
    ((fun _ => true) (⟨"boom", "Error", "s", none, false⟩ : JSError) = true) ∧
    (memoizedCall 1000 (fun _ => true) (.const 0) "k"
        (.threw ⟨"boom", "Error", "s", none, false⟩) [] 0).store = [] ∧
    (memoizedCall 1000 (fun _ => true) (.const 0) "k"
        (.threw ⟨"boom", "Error", "s", none, false⟩) [] 0).outcome
      = .error ⟨"boom", "Error", "s", none, false⟩ :=
  ⟨rfl, rfl, rfl⟩

/-- C10: `writeKeyToRedis` mutates the caller-supplied error object itself by
setting its `_$$_error` property to `true` before serializing it (the
serialized object carries the marker field), and consequently the error the
memoized call rethrows after error memoization carries this extra property
the computation did not put there — it differs from the error as thrown. -/
theorem error_object_mutated_by_write (lt : Nat) (pred : JSError → Bool)
    (ttl : TtlSpec) (key : String) (e : JSError) (st : MStore) (now : Nat)
    (hmiss : storeGet st key now = none) (hp : pred e = true)
    (ht : ttlfn ttl (some (.err e)) ≠ 0) (hunmarked : e.marked = false) :
    ((serializeValue (.err e)).1 = .err { e with marked := true }) ∧
    (∃ fs, serializeError { e with marked := true } = .obj fs ∧
      (errorMarker, JSON.bool true) ∈ fs) ∧
    ((memoizedCall lt pred ttl key (.threw e) st now).outcome
      = .error { e with marked := true }) ∧
    { e with marked := true } ≠ e := by
  refine ⟨rfl, ⟨_, rfl, by simp⟩,
    (memoizedCall_threw_memoized lt pred ttl key e st now hmiss hp ht).1, ?_⟩
  intro h
  rw [← h] at hunmarked
  simp at hunmarked

/-- Witness for C10: a concrete unmarked error is rethrown marked. -/
theorem error_object_mutated_by_write_witness :
    (serializeValue (.err ⟨"boom", "Error", "s", none, false⟩)).1
      = .err ⟨"boom", "Error", "s", none, true⟩ ∧
    (memoizedCall 1000 (fun _ => true) (.const 7) "k"
        (.threw ⟨"boom", "Error", "s", none, false⟩) [] 0).outcome
      = .error ⟨"boom", "Error", "s", none, true⟩ ∧
    (⟨"boom", "Error", "s", none, true⟩ : JSError)
      ≠ ⟨"boom", "Error", "s", none, false⟩ := by
  have h := error_object_mutated_by_write 1000 (fun _ => true) (.const 7) "k"
    ⟨"boom", "Error", "s", none, false⟩ [] 0 rfl rfl (by decide) rfl
  exact ⟨h.1, h.2.2.1, h.2.2.2⟩

/-- C7: every store lookup a memoized call performs is bounded by
`min(t, lookup_timeout)` where `t` is the TTL estimate — the constant when
`ttl` is a duration, the result of calling the ttl function with no argument
when it is a function — and on a miss both the initial lookup and the
post-lock re-check are performed with that same bound. -/
theorem lookup_timeout_bound (lt : Nat) (pred : JSError → Bool) (ttl : TtlSpec)
    (key : String) (f : FnOutcome) (st : MStore) (now : Nat) :
    (∀ k b, Event.lookupEv k b ∈ (memoizedCall lt pred ttl key f st now).trace →
      b = min (ttlfn ttl none) lt) ∧
    (storeGet st key now = none →
      (memoizedCall lt pred ttl key f st now).trace.countP isLookupEv = 2) := by
  constructor
  · intro k b hmem
    simp only [memoizedCall] at hmem
    repeat' split at hmem
    all_goals simp_all
  · intro hmiss
    simp only [memoizedCall, hmiss, getKeyFromRedis]
    cases f with
    | ok r =>
        by_cases hz : ttlfn ttl (some r) = 0 <;>
          simp [writeKeyToRedis, hz, isLookupEv, List.countP_cons, List.countP_append]
    | threw e =>
        cases hp : pred e <;>
          by_cases hz : ttlfn ttl (some (.err e)) = 0 <;>
            simp [writeKeyToRedis, hz, hp, isLookupEv, List.countP_cons,
              List.countP_append, serializeValue]

/-- Witness for C7: on a concrete miss there are exactly two lookups, and a
lookup bound occurring in the trace equals the minimum of the TTL estimate
and the configured lookup timeout. -/
theorem lookup_timeout_bound_witness :
    List.countP isLookupEv
      (memoizedCall 1000 (fun _ => false) (.const 120000) "k" (.ok (.num 1))
        [] 0).trace = 2 :=
  (lookup_timeout_bound 1000 (fun _ => false) (.const 120000) "k" (.ok (.num 1))
    [] 0).2 rfl

end RedisMemoizer
